import Mathlib

/-!
Verification development for `dataset_anonymization.py`, the single module of
the repository: a batch pipeline that loads the Lending Club dataset,
anonymizes and filters it, draws a stratified sample, and compares temporal
distributions.

The pandas data model is shallowly embedded: a `DataFrame` is a list of
column names together with a list of rows, a row being an association list
from column names to `Value`s.  Dates are encoded as natural numbers
`y*10000 + m*100 + d`, which is order-isomorphic to day-precision dates with
valid month/day fields.  pandas operations used by the source (column
assignment, boolean-mask filtering, `drop(columns=...)`, `isin`,
`value_counts`, `sample(n, random_state)`) are modelled as the corresponding
pure list operations.  Fallible pandas operations (KeyError on a missing
column, `to_datetime` parse failure, `pd.concat([])`) are modelled with
`Except`/`Option` results.
-/

/-- A cell value: the source only distinguishes strings, integers and
(parsed) datetimes among the values its logic inspects. -/
inductive Value where
  | str (s : String)
  | int (n : Int)
  | date (d : Nat)
deriving DecidableEq, Repr

/-- A row: an association list from column names to values. -/
abbrev Row := List (String × Value)

/-- A pandas DataFrame: a column index plus a list of rows. -/
structure DataFrame where
  cols : List String
  rows : List Row
deriving DecidableEq, Repr

/-- Reading one cell of a row (`row[col]`). -/
def getCell (r : Row) (c : String) : Option Value :=
  (r.find? (fun p => p.1 == c)).map Prod.snd

/-- Writing one cell of a row (`row[col] = v`).  The association list keeps a
single binding per key; the frame-level column order is tracked in
`DataFrame.cols`, so the position of the binding inside the row is
irrelevant (rows are only read through `getCell`). -/
def setCell (r : Row) (c : String) (v : Value) : Row :=
  (c, v) :: r.filter (fun p => !(p.1 == c))

/-- Models `df.drop(columns=[c for c in cs if c in df.columns])`: removes the listed
columns from the column index and from every row; absent columns are a
no-op. -/
def dropCols (cs : List String) (df : DataFrame) : DataFrame :=
  ⟨df.cols.filter (fun c => !(cs.contains c)),
   df.rows.map (fun r => r.filter (fun p => !(cs.contains p.1)))⟩

/-- Column-index update for `df[c] = ...`: a new column is appended at the
end, an existing one keeps its position. -/
def appendCol (cols : List String) (c : String) : List String :=
  if c ∈ cols then cols else cols ++ [c]

/-- Splits a character list at each `'-'` (the field separator of ISO date
text). -/
def splitDash : List Char → List Char → List (List Char)
  | [], acc => [acc.reverse]
  | c :: rest, acc =>
    if c = '-' then acc.reverse :: splitDash rest [] else splitDash rest (c :: acc)

/-- Reads a non-empty all-digit character list as a decimal number. -/
def parseNatDigits (cs : List Char) : Option Nat :=
  if cs.isEmpty then none
  else
    cs.foldl
      (fun acc c =>
        match acc with
        | some n => if c.isDigit then some (n * 10 + (c.toNat - 48)) else none
        | none => none)
      (some 0)

/-- Parser for ISO `YYYY-MM-DD` date text, the normal form of the date
literals the source compares against.  `pd.to_datetime` accepts further
textual formats; the embedding treats those, like genuinely malformed text,
as parse failures. -/
def parseDate (s : String) : Option Nat :=
  match splitDash s.data [] with
  | [ys, ms, ds] =>
    match parseNatDigits ys, parseNatDigits ms, parseNatDigits ds with
    | some y, some m, some d =>
      if 1 ≤ m ∧ m ≤ 12 ∧ 1 ≤ d ∧ d ≤ 31 then some (y * 10000 + m * 100 + d)
      else none
    | _, _, _ => none
  | _ => none

/-- Models `pd.to_datetime` on a single cell: already-parsed datetimes pass
through, strings are parsed, anything else fails. -/
def toDatetime : Value → Option Nat
  | Value.date n => some n
  | Value.str s => parseDate s
  | _ => none

/-- Models `df['issue_d'] = pd.to_datetime(df['issue_d'])`, row by row: every row
must hold a parseable `issue_d` cell, which is replaced by its parsed date
value; any failure aborts the whole assignment. -/
def parseRows : List Row → Option (List Row)
  | [] => some []
  | r :: rs =>
    match getCell r "issue_d" with
    | some v =>
      match toDatetime v with
      | some n => (parseRows rs).map (fun rest => setCell r "issue_d" (Value.date n) :: rest)
      | none => none
    | none => none

/-- The paid status set (source line 107). -/
def paid_status : List String :=
  ["Fully Paid", "Does not meet the credit policy. Status:Fully Paid"]

/-- The default status set (source lines 108-109). -/
def default_status : List String :=
  ["Charged Off", "Default", "Late (31-120 days)", "In Grace Period",
   "Does not meet the credit policy. Status:Charged Off", "Late (16-30 days)"]

/-- The 16 leakage columns (source lines 118-121). -/
def future_leak_cols : List String :=
  ["last_pymnt_d", "total_pymnt", "recoveries", "collection_recovery_fee",
   "last_credit_pull_d", "out_prncp", "out_prncp_inv", "total_pymnt_inv",
   "total_rec_prncp", "total_rec_int", "total_rec_late_fee", "hardship_flag",
   "settlement_status", "settlement_date", "settlement_amount", "debt_settlement_flag"]

/-- The 5 privacy columns (source line 128). -/
def privacy_cols : List String :=
  ["member_id", "emp_title", "url", "desc", "title"]

/-- Inclusive lower bound of the time window, `2015-01-01`. -/
def windowLo : Nat := 20150101

/-- Inclusive upper bound of the time window, `2020-12-31`. -/
def windowHi : Nat := 20201231

/-- The boolean mask `(df['issue_d'] >= '2015-01-01') & (df['issue_d'] <= '2020-12-31')`
on one row whose `issue_d` has been parsed. -/
def issueInWindow (r : Row) : Bool :=
  match getCell r "issue_d" with
  | some (Value.date n) => windowLo ≤ n && n ≤ windowHi
  | _ => false

/-- Models `row['loan_status'].isin(ss)`: true when the cell holds one of the
listed strings. -/
def statusIsIn (r : Row) (ss : List String) : Bool :=
  match getCell r "loan_status" with
  | some (Value.str s) => ss.contains s
  | _ => false

/-- The temporal filter of source line 103. -/
def filterWindow (rows : List Row) : List Row :=
  rows.filter issueInWindow

/-- The status filter of source line 111. -/
def filterStatus (rows : List Row) : List Row :=
  rows.filter (fun r => statusIsIn r (paid_status ++ default_status))

/-- Source line 112: `target_default = loan_status.isin(default_status).astype(int)`. -/
def addTarget (r : Row) : Row :=
  setCell r "target_default" (Value.int (if statusIsIn r default_status then 1 else 0))

/-- Embedding of `anonymize_and_filter_data` (source lines 89-134).  The returned pair is
(the caller's table as it stands after the call — line 102 assigns the
parsed `issue_d` column into the input in place — , the returned filtered
table).  The `target_dist[0]`/`target_dist[1]` prints of line 115 raise a
`KeyError` unless both label classes occur among the surviving rows, which
the error branch models; the branch is decided before the column drops of
lines 124 and 130 are reached, exactly as in the source. -/
def anonymize_and_filter_data (df : DataFrame) : Except String (DataFrame × DataFrame) :=
  if "issue_d" ∈ df.cols then
    match parseRows df.rows with
    | none => .error "to_datetime: unparseable issue_d"
    | some prows =>
      if "loan_status" ∈ df.cols then
        if (filterStatus (filterWindow prows)).any (fun r => !statusIsIn r default_status)
            && (filterStatus (filterWindow prows)).any (fun r => statusIsIn r default_status) then
          .ok (⟨df.cols, prows⟩,
               dropCols privacy_cols (dropCols future_leak_cols
                 ⟨appendCol df.cols "target_default",
                  (filterStatus (filterWindow prows)).map addTarget⟩))
        else .error "KeyError: target_dist"
      else .error "KeyError: loan_status"
  else .error "KeyError: issue_d"

/-- The state of the caller's table after `anonymize_and_filter_data`
returns successfully. -/
def anonAfter (df : DataFrame) : DataFrame :=
  match anonymize_and_filter_data df with
  | .ok p => p.1
  | .error _ => df

/-- The table returned by a successful `anonymize_and_filter_data`. -/
def anonOut (df : DataFrame) : DataFrame :=
  match anonymize_and_filter_data df with
  | .ok p => p.2
  | .error _ => ⟨[], []⟩

/-- One step of a linear congruential generator (Numerical Recipes
constants), standing in for numpy's Mersenne Twister: the embedding only
relies on the selection being a deterministic function of the seed. -/
def lcgNext (s : Nat) : Nat := (s * 1664525 + 1013904223) % 4294967296

/-- Models `df.sample(n=n, random_state=seed)`: a deterministic
pseudorandom selection of `n` rows without replacement (each draw removes
the chosen row), parameterized by the seed. -/
def sampleRows : Nat → Nat → List Row → List Row
  | _, 0, _ => []
  | _, _ + 1, [] => []
  | seed, n + 1, r :: rs =>
    (r :: rs).get ⟨lcgNext seed % (r :: rs).length, Nat.mod_lt _ (Nat.succ_pos rs.length)⟩ ::
      sampleRows (lcgNext seed) n ((r :: rs).eraseIdx (lcgNext seed % (r :: rs).length))

/-- The issuance year of a row, `df['issue_d'].dt.year` on one cell:
defined only when `issue_d` holds a parsed datetime. -/
def rowAno (r : Row) : Option Int :=
  match getCell r "issue_d" with
  | some (Value.date n) => some ((n / 10000 : Nat) : Int)
  | _ => none

/-- The `target_default` label of a row, when present and integral. -/
def rowTarget (r : Row) : Option Int :=
  match getCell r "target_default" with
  | some (Value.int t) => some t
  | _ => none

/-- The `ano` (year) cell of a row, when present and integral. -/
def rowAnoCell (r : Row) : Option Int :=
  match getCell r "ano" with
  | some (Value.int y) => some y
  | _ => none

/-- The `strata` cell of a row, when present and textual. -/
def rowStrataCell (r : Row) : Option String :=
  match getCell r "strata" with
  | some (Value.str k) => some k
  | _ => none

/-- The stratum key recomputed from the `ano` and `target_default` columns,
exactly the string built in source line 154
(`df['ano'].astype(str) + '_' + df['target_default'].astype(str)`). -/
def strataKeyOf (r : Row) : Option String :=
  match rowAnoCell r, rowTarget r with
  | some y, some t => some (toString y ++ "_" ++ toString t)
  | _, _ => none

/-- Source lines 153-154 on one row: assign `ano` from the issuance year,
then `strata` from `ano` and `target_default`; fails when `issue_d` is not
a datetime or `target_default` is not integral (pandas raises there). -/
def addAnoStrataRow (r : Row) : Option Row :=
  match rowAno r with
  | some y =>
    match rowTarget r with
    | some t =>
      some (setCell (setCell r "ano" (Value.int y)) "strata"
        (Value.str (toString y ++ "_" ++ toString t)))
    | none => none
  | none => none

/-- Source lines 153-154 over all rows. -/
def annotateRows : List Row → Option (List Row)
  | [] => some []
  | r :: rs =>
    match addAnoStrataRow r with
    | some r2 => (annotateRows rs).map (fun rest => r2 :: rest)
    | none => none

/-- The input table as it stands after the in-place column assignments of
source lines 153-154: the `ano` and `strata` columns are added (appended to
the column index when absent). -/
def annotatedFrame (df : DataFrame) : Option DataFrame :=
  if "issue_d" ∈ df.cols ∧ "target_default" ∈ df.cols then
    match annotateRows df.rows with
    | some arows => some ⟨appendCol (appendCol df.cols "ano") "strata", arows⟩
    | none => none
  else none

/-- Fuel-based base-2 logarithm: for `1 ≤ n` (and fuel at least `n`) the
largest `k` with `2^k ≤ n`.  Structural recursion on the fuel keeps it
kernel-computable. -/
def natLog2 : Nat → Nat → Nat
  | 0, _ => 0
  | fuel + 1, n => if n ≥ 2 then natLog2 fuel (n / 2) + 1 else 0

/-- Round `num/den` (`1 ≤ den`) to the nearest integer, ties to even — the
IEEE-754 default rounding used by every float64 operation below. -/
def roundHalfEvenDiv (num den : Nat) : Nat :=
  if 2 * (num % den) < den then num / den
  else if 2 * (num % den) > den then num / den + 1
  else if num / den % 2 = 0 then num / den else num / den + 1

/-- A non-negative IEEE-754 double in the normal range: the value
`m * 2^(e-52)` with `2^52 ≤ m < 2^53`, or zero (`m = 0`).  The numbers this
pipeline pushes through float64 arithmetic (row counts, shares in `[0,1]`,
percentages) stay far from the subnormal and overflow regions, so this
covers every value that arises. -/
structure Dyadic where
  m : Nat
  e : Int
deriving DecidableEq, Repr

/-- The float64 nearest to the non-negative rational `p/q` (`1 ≤ q`),
rounding ties to even: the exponent `e` with `2^e ≤ p/q < 2^(e+1)` is found
from the integer logarithms of `p` and `q`, the significand is the
correctly rounded 53-bit scaling, and a carry into `2^53` renormalizes. -/
def fl64OfRat (p q : Nat) : Dyadic :=
  if p = 0 then ⟨0, 0⟩
  else
    let a := natLog2 p p
    let b := natLog2 q q
    let e : Int := if p * 2 ^ b ≥ q * 2 ^ a then (a : Int) - b else (a : Int) - b - 1
    let m :=
      if e ≤ 52 then roundHalfEvenDiv (p * 2 ^ ((52 : Int) - e).toNat) q
      else roundHalfEvenDiv p (q * 2 ^ (e - 52).toNat)
    if m = 2 ^ 53 then ⟨2 ^ 52, e + 1⟩ else ⟨m, e⟩

/-- Float64 division of two natural counts, `c / total` in Python (true
division) and `series / len(df)` in pandas. -/
def pyDiv (c total : Nat) : Dyadic := fl64OfRat c total

/-- Float64 product of a double with a natural number that is exactly
representable (every count and size in this pipeline is far below `2^53`):
the exact product, rounded back to 53 bits. -/
def pyMulNat (d : Dyadic) (k : Nat) : Dyadic :=
  if d.m = 0 ∨ k = 0 then ⟨0, 0⟩
  else if (52 : Int) ≤ d.e then fl64OfRat (d.m * k * 2 ^ (d.e - 52).toNat) 1
  else fl64OfRat (d.m * k) (2 ^ ((52 : Int) - d.e).toNat)

/-- Python `int(x)` on a non-negative double: truncation toward zero. -/
def pyTrunc (d : Dyadic) : Nat :=
  if d.m = 0 then 0
  else if (52 : Int) ≤ d.e then d.m * 2 ^ (d.e - 52).toNat
  else d.m / 2 ^ ((52 : Int) - d.e).toNat

/-- Rounding a non-negative double to the nearest integer, ties to even —
numpy's `rint`, the core of `.round(decimals)`. -/
def pyRint (d : Dyadic) : Nat :=
  if d.m = 0 then 0
  else if (52 : Int) ≤ d.e then d.m * 2 ^ (d.e - 52).toNat
  else roundHalfEvenDiv d.m (2 ^ ((52 : Int) - d.e).toNat)

/-- The magnitude of the float64 difference of two non-negative doubles:
the exact difference on a common binary scale, rounded back to 53 bits
(IEEE subtraction is exactly rounded). -/
def dySub (a b : Dyadic) : Dyadic :=
  if a.m = 0 then b
  else if b.m = 0 then a
  else
    let s := min a.e b.e
    let na := a.m * 2 ^ (a.e - s).toNat
    let nb := b.m * 2 ^ (b.e - s).toNat
    let diff := max na nb - min na nb
    if diff = 0 then ⟨0, 0⟩
    else if (52 : Int) ≤ s then fl64OfRat (diff * 2 ^ (s - 52).toNat) 1
    else fl64OfRat diff (2 ^ ((52 : Int) - s).toNat)

/-- Source line 165: `int(target_size * prop)` with `prop =
strata_counts[strata] / len(df)`, computed exactly as the program does —
`c/total` rounded to float64, multiplied by `target_size` in float64, then
truncated toward zero.  This can fall one below the exact floor (e.g.
`int(49 * (2/49)) = int(1.9999999999999998) = 1`). -/
def pyStratumFloor (target_size c total : Nat) : Nat :=
  pyTrunc (pyMulNat (pyDiv c total) target_size)

/-- Source lines 165-168 for one stratum: the float64-truncated desired
size, forced up to 1 when it is zero and the stratum is non-empty, then
capped at the stratum's available count. -/
def sampleSizeFor (target_size total c : Nat) : Nat :=
  min (if pyStratumFloor target_size c total = 0 ∧ 0 < c then 1
       else pyStratumFloor target_size c total) c

/-- Source lines 172-179 for one stratum key: the stratum's rows
(`df[df['strata'] == strata]`) and the drawn sample — all of the stratum's
rows when fewer than the computed size, a seeded random selection
otherwise.  A stratum whose computed size is zero contributes nothing. -/
def strataBlock (seed target_size : Nat) (arows : List Row) (k : String) : List Row :=
  if sampleSizeFor target_size arows.length
      ((arows.filter (fun r => rowStrataCell r == some k)).length) > 0 then
    if (arows.filter (fun r => rowStrataCell r == some k)).length ≥
        sampleSizeFor target_size arows.length
          ((arows.filter (fun r => rowStrataCell r == some k)).length) then
      sampleRows seed
        (sampleSizeFor target_size arows.length
          ((arows.filter (fun r => rowStrataCell r == some k)).length))
        (arows.filter (fun r => rowStrataCell r == some k))
    else arows.filter (fun r => rowStrataCell r == some k)
  else []

/-- Source lines 157-182: one block per distinct stratum value,
concatenated.  pandas `value_counts` enumerates strata by descending
frequency; that order only permutes the concatenation order of the
per-stratum blocks and nothing proved here depends on it, so the embedding
enumerates strata by first occurrence (`dedup` keeps one copy of each). -/
def sampledRows (seed target_size : Nat) (arows : List Row) : List Row :=
  (((arows.filterMap rowStrataCell).dedup).map (strataBlock seed target_size arows)).flatten

/-- Embedding of `create_stratified_sample` (source lines 137-195).  The
returned pair is (the caller's table as it stands after the call — lines
153-154 add the `ano` and `strata` columns in place — , the returned
sample).  On an empty input no stratum contributes a block and
`pd.concat([])` raises, modelled by `none`; the final `drop(['strata'])` of
line 185 removes the stratum key from the sample. -/
def create_stratified_sample (df : DataFrame) (target_size random_state : Nat) :
    Option (DataFrame × DataFrame) :=
  match annotatedFrame df with
  | some dfA =>
    if dfA.rows.isEmpty then none
    else some (dfA,
      dropCols ["strata"] ⟨dfA.cols, sampledRows random_state target_size dfA.rows⟩)
  | none => none

/-- The state of the caller's table after `create_stratified_sample`
returns successfully. -/
def csAfter (df : DataFrame) (target_size random_state : Nat) : DataFrame :=
  match create_stratified_sample df target_size random_state with
  | some p => p.1
  | none => df

/-- The sample returned by a successful `create_stratified_sample`. -/
def csOut (df : DataFrame) (target_size random_state : Nat) : DataFrame :=
  match create_stratified_sample df target_size random_state with
  | some p => p.2
  | none => ⟨[], []⟩

/-- The two compression states `pd.read_csv` is invoked with (source lines
72-83): `compression='gzip'` or `compression=None`. -/
inductive Compression where
  | gzip
  | uncompressed
deriving DecidableEq, Repr

/-- String suffix test, `file_path.endswith(suffix)`, on the underlying
character lists. -/
def pathEndsWith (s suffix : String) : Bool := suffix.data.isSuffixOf s.data

/-- The canonical gzip magic number `b'\x1f\x8b'` (source line 79). -/
def gzipMagic : List Nat := [0x1f, 0x8b]

/-- The compression decision of `load_lending_club_data` (source lines
72-81) as a function of the file path and the file's first (up to) two
bytes: `.gz` paths are read as gzip; `.gzip` paths are sniffed — gzip
exactly when the magic bytes match; anything else is uncompressed. -/
def detectCompression (file_path : String) (magic : List Nat) : Compression :=
  if pathEndsWith file_path ".gz" then Compression.gzip
  else if pathEndsWith file_path ".gzip" then
    (if magic = gzipMagic then Compression.gzip else Compression.uncompressed)
  else Compression.uncompressed

/-- Source lines 239-240 over all rows of one table: assign `ano` from the
issuance year; fails when some `issue_d` is not a datetime (`.dt` raises). -/
def anoRows : List Row → Option (List Row)
  | [] => some []
  | r :: rs =>
    match rowAno r with
    | some y => (anoRows rs).map (fun rest => setCell r "ano" (Value.int y) :: rest)
    | none => none

/-- The multiset of `ano` values of a table's rows. -/
def yearVals (rows : List Row) : List Int := rows.filterMap rowAnoCell

/-- The number of rows carrying a given `ano` value. -/
def yearCount (rows : List Row) (y : Int) : Nat :=
  (rows.filter (fun r => rowAnoCell r == some y)).length

/-- A share `cnt/total` as a percentage rounded to one decimal, represented
by its integer number of tenths of a percent (e.g. 6.2% is 62), computed
exactly as `(dist * 100).round(1)` does in float64: the share rounded to a
double, multiplied by 100 in float64, then `.round(1)` — which multiplies
by 10 in float64 and rounds to the nearest integer, ties to even (so
`1/16` gives 6.2, not 6.3).  The reported value is this integer divided by
ten. -/
def pctTenths (cnt total : Nat) : Nat :=
  pyRint (pyMulNat (pyMulNat (pyDiv cnt total) 100) 10)

/-- The absolute difference of the two float64 shares `co/no` and `cs/ns`
as percentage points rounded to one decimal, in integer tenths, computed
as `abs((original_dist - sample_dist) * 100).round(1)` does: float64
subtraction of the two share doubles, float64 multiplication by 100, then
the same `.round(1)` as `pctTenths`. -/
def diffTenths (co no cs ns : Nat) : Nat :=
  pyRint (pyMulNat (pyMulNat (dySub (pyDiv co no) (pyDiv cs ns)) 100) 10)

/-- One output row of the temporal comparison (source lines 245-249), for
one year: the source share, sample share and absolute difference, each as
rounded percentage tenths, and each missing (pandas `NaN` under index
alignment) whenever the year is absent from the corresponding table. -/
def compEntry (ro rs : List Row) (y : Int) : Int × Option Nat × Option Nat × Option Nat :=
  (y,
   if y ∈ yearVals ro then some (pctTenths (yearCount ro y) ro.length) else none,
   if y ∈ yearVals rs then some (pctTenths (yearCount rs y) rs.length) else none,
   if y ∈ yearVals ro ∧ y ∈ yearVals rs then
     some (diffTenths (yearCount ro y) ro.length (yearCount rs y) rs.length)
   else none)

/-- Embedding of `analyze_temporal_distribution` (source lines 228-251).
Returns (the first table after its in-place `ano` assignment, the second
likewise, the comparison table): one row per year present in either table,
indexed ascending — pandas aligns the two sorted year indexes on their
sorted union when building the DataFrame of line 245. -/
def analyze_temporal_distribution (dfo dfs : DataFrame) :
    Option (DataFrame × DataFrame × List (Int × Option Nat × Option Nat × Option Nat)) :=
  if "issue_d" ∈ dfo.cols ∧ "issue_d" ∈ dfs.cols then
    match anoRows dfo.rows, anoRows dfs.rows with
    | some ro, some rs =>
      some (⟨appendCol dfo.cols "ano", ro⟩, ⟨appendCol dfs.cols "ano", rs⟩,
        (List.insertionSort (· ≤ ·) ((yearVals ro ++ yearVals rs).dedup)).map (compEntry ro rs))
    | _, _ => none
  else none

/-- The triple returned by a successful `analyze_temporal_distribution`. -/
def atdRes (dfo dfs : DataFrame) :
    DataFrame × DataFrame × List (Int × Option Nat × Option Nat × Option Nat) :=
  (analyze_temporal_distribution dfo dfs).getD (dfo, dfs, [])

/-- Example input: a raw table with textual issue dates, both label
classes, a privacy column and an ordinary retained column. -/
def exDf : DataFrame :=
  ⟨["issue_d", "loan_status", "member_id", "loan_amnt"],
   [[("issue_d", Value.str "2015-06-01"), ("loan_status", Value.str "Fully Paid"),
     ("member_id", Value.int 5), ("loan_amnt", Value.int 1000)],
    [("issue_d", Value.str "2016-03-15"), ("loan_status", Value.str "Charged Off"),
     ("member_id", Value.int 6), ("loan_amnt", Value.int 2000)]]⟩

/-- Example input whose surviving rows all carry the same label class. -/
def exOneClass : DataFrame :=
  ⟨["issue_d", "loan_status"],
   [[("issue_d", Value.str "2015-06-01"), ("loan_status", Value.str "Fully Paid")]]⟩

/-- The parsed rows of `exOneClass`. -/
def exOneClassParsed : List Row :=
  [[("issue_d", Value.date 20150601), ("loan_status", Value.str "Fully Paid")]]

/-- Example filtered table, as handed to the sampling engine: parsed dates
and an integer label. -/
def exFdf : DataFrame :=
  ⟨["issue_d", "loan_status", "target_default"],
   [[("issue_d", Value.date 20150601), ("loan_status", Value.str "Fully Paid"),
     ("target_default", Value.int 0)],
    [("issue_d", Value.date 20160315), ("loan_status", Value.str "Charged Off"),
     ("target_default", Value.int 1)],
    [("issue_d", Value.date 20160420), ("loan_status", Value.str "Fully Paid"),
     ("target_default", Value.int 0)]]⟩

/-- Example filtered table with 49 rows: 47 in stratum `2015_0` and 2 in
stratum `2016_1`.  At `target_size = 49` the two-row stratum exhibits the
float64 truncation `int(49 * (2/49)) = int(1.9999999999999998) = 1`, one
below the exact floor 2. -/
def exBig : DataFrame :=
  ⟨["issue_d", "loan_status", "target_default"],
   List.replicate 47
     [("issue_d", Value.date 20150601), ("loan_status", Value.str "Fully Paid"),
      ("target_default", Value.int 0)] ++
   List.replicate 2
     [("issue_d", Value.date 20160315), ("loan_status", Value.str "Charged Off"),
      ("target_default", Value.int 1)]⟩

/-- Example source table for the temporal comparison: one 2015 row. -/
def exO7 : DataFrame := ⟨["issue_d"], [[("issue_d", Value.date 20150601)]]⟩

/-- Example sample table for the temporal comparison: one 2016 row. -/
def exS7 : DataFrame := ⟨["issue_d"], [[("issue_d", Value.date 20160315)]]⟩

/-- Example frame without privacy columns, for the no-op half of the
column-drop property. -/
def exNoPriv : DataFrame := ⟨["issue_d"], [[("issue_d", Value.date 20150601)]]⟩

theorem find?_filter_keep (l : List (String × Value)) (keep : String × Value → Bool)
    (c : String) (h : ∀ p : String × Value, p.1 = c → keep p = true) :
    (l.filter keep).find? (fun p => p.1 == c) = l.find? (fun p => p.1 == c) := by
  induction l with
  | nil => rfl
  | cons p l ih =>
    by_cases hk : keep p = true
    · rw [List.filter_cons_of_pos hk]
      by_cases he : p.1 = c
      · rw [List.find?_cons_of_pos _ (by simpa using he), List.find?_cons_of_pos _ (by simpa using he)]
      · rw [List.find?_cons_of_neg _ (by simpa using he), List.find?_cons_of_neg _ (by simpa using he), ih]
    · rw [List.filter_cons_of_neg (by simpa using hk), ih, List.find?_cons_of_neg]
      simp only [beq_iff_eq]
      intro he
      exact hk (h p he)

theorem getCell_setCell_same (r : Row) (c : String) (v : Value) :
    getCell (setCell r c v) c = some v := by
  simp [getCell, setCell]

theorem getCell_setCell_ne (r : Row) (c cq : String) (v : Value) (h : cq ≠ c) :
    getCell (setCell r c v) cq = getCell r cq := by
  unfold getCell setCell
  rw [List.find?_cons_of_neg _ (by simpa using fun e => h (Eq.symm e)),
    find?_filter_keep]
  intro p hp
  simp [hp, h]

theorem getCell_filter_not_contains (r : Row) (cs : List String) (c : String)
    (h : cs.contains c = false) :
    getCell (r.filter (fun p => !(cs.contains p.1))) c = getCell r c := by
  unfold getCell
  rw [find?_filter_keep]
  intro p hp
  simp only [hp, h, Bool.not_false]

theorem parseRows_spec : ∀ {l l' : List Row}, parseRows l = some l' →
    l'.length = l.length ∧
    ∀ i, i < l.length →
      ∃ v n, getCell (l.getD i []) "issue_d" = some v ∧ toDatetime v = some n ∧
        l'.getD i [] = setCell (l.getD i []) "issue_d" (Value.date n) := by
  intro l
  induction l with
  | nil =>
    intro l' h
    simp only [parseRows, Option.some.injEq] at h
    subst h
    exact ⟨rfl, fun i hi => absurd hi (Nat.not_lt_zero i)⟩
  | cons r rs ih =>
    intro l' h
    simp only [parseRows] at h
    split at h
    next v hg =>
      split at h
      next n ht =>
        cases hp : parseRows rs with
        | none => rw [hp] at h; exact Option.noConfusion h
        | some rest =>
          rw [hp] at h
          simp only [Option.map_some', Option.some.injEq] at h
          subst h
          obtain ⟨hlen, hpt⟩ := ih hp
          refine ⟨by simp [hlen], ?_⟩
          intro i hi
          cases i with
          | zero => exact ⟨v, n, by simpa using hg, ht, by simp⟩
          | succ j =>
            simp only [List.getD_cons_succ]
            exact hpt j (Nat.lt_of_succ_lt_succ hi)
      next ht => exact Option.noConfusion h
    next hg => exact Option.noConfusion h

theorem anonymize_inv {df : DataFrame} {p : DataFrame × DataFrame}
    (h : anonymize_and_filter_data df = .ok p) :
    ∃ prows, "issue_d" ∈ df.cols ∧ parseRows df.rows = some prows ∧ "loan_status" ∈ df.cols ∧
      ((filterStatus (filterWindow prows)).any (fun r => !statusIsIn r default_status)
        && (filterStatus (filterWindow prows)).any (fun r => statusIsIn r default_status)) = true ∧
      p = (⟨df.cols, prows⟩,
           dropCols privacy_cols (dropCols future_leak_cols
             ⟨appendCol df.cols "target_default",
              (filterStatus (filterWindow prows)).map addTarget⟩)) := by
  unfold anonymize_and_filter_data at h
  split at h
  case isTrue hid =>
    split at h
    next hp => exact Except.noConfusion h
    next prows hp =>
      split at h
      case isTrue hls =>
        split at h
        case isTrue hcls =>
          simp only [Except.ok.injEq] at h
          exact ⟨prows, hid, hp, hls, hcls, h.symm⟩
        case isFalse hcls => exact Except.noConfusion h
      case isFalse hls => exact Except.noConfusion h
  case isFalse hid => exact Except.noConfusion h

theorem anonOut_rows_mem {df : DataFrame} {p : DataFrame × DataFrame}
    (h : anonymize_and_filter_data df = .ok p) {r : Row} (hr : r ∈ p.2.rows) :
    ∃ prows r0, parseRows df.rows = some prows ∧
      r0 ∈ filterStatus (filterWindow prows) ∧
      (∀ c : String, c ≠ "target_default" → future_leak_cols.contains c = false →
        privacy_cols.contains c = false → getCell r c = getCell r0 c) ∧
      getCell r "target_default" =
        some (Value.int (if statusIsIn r0 default_status then 1 else 0)) := by
  obtain ⟨prows, hid, hp, hls, hcls, hpe⟩ := anonymize_inv h
  rw [hpe] at hr
  simp only [dropCols, List.mem_map] at hr
  obtain ⟨r1, ⟨r2, ⟨r0, hr0, rfl⟩, rfl⟩, rfl⟩ := hr
  refine ⟨prows, r0, hp, hr0, ?_, ?_⟩
  · intro c hct hcl hcp
    rw [getCell_filter_not_contains _ _ _ hcp, getCell_filter_not_contains _ _ _ hcl]
    simp only [addTarget]
    rw [getCell_setCell_ne _ _ _ _ hct]
  · rw [getCell_filter_not_contains _ _ _ (by decide), getCell_filter_not_contains _ _ _ (by decide)]
    simp only [addTarget]
    rw [getCell_setCell_same]

/-- C1: every record retained by `anonymize_and_filter_data` has `issue_d`
within the inclusive range 2015-01-01..2020-12-31 and `loan_status` in the
union of the Paid and Default sets; no other status appears. -/
theorem anonymize_rows_in_window_and_status (df : DataFrame) (p : DataFrame × DataFrame)
    (h : anonymize_and_filter_data df = .ok p) (r : Row) (hr : r ∈ p.2.rows) :
    (∃ n, getCell r "issue_d" = some (Value.date n) ∧ windowLo ≤ n ∧ n ≤ windowHi) ∧
    (∃ s, getCell r "loan_status" = some (Value.str s) ∧
      (s ∈ paid_status ∨ s ∈ default_status)) := by
  obtain ⟨prows, r0, hp, hr0, hsame, htgt⟩ := anonOut_rows_mem h hr
  rw [filterStatus, List.mem_filter] at hr0
  obtain ⟨hw0, hs0⟩ := hr0
  rw [filterWindow, List.mem_filter] at hw0
  obtain ⟨-, hw⟩ := hw0
  constructor
  · rw [hsame "issue_d" (by decide) (by decide) (by decide)]
    unfold issueInWindow at hw
    split at hw
    next n hg =>
      simp only [Bool.and_eq_true, decide_eq_true_eq] at hw
      exact ⟨n, hg, hw.1, hw.2⟩
    next hg => exact Bool.noConfusion hw
  · rw [hsame "loan_status" (by decide) (by decide) (by decide)]
    unfold statusIsIn at hs0
    split at hs0
    next s hg =>
      refine ⟨s, hg, ?_⟩
      have : s ∈ paid_status ++ default_status := by
        simpa using hs0
      simpa using List.mem_append.mp this
    next hg => exact Bool.noConfusion hs0

theorem anonymize_rows_in_window_and_status_witness :
    (∃ n, getCell ((anonOut exDf).rows.getD 0 []) "issue_d" = some (Value.date n) ∧
      windowLo ≤ n ∧ n ≤ windowHi) ∧
    (∃ s, getCell ((anonOut exDf).rows.getD 0 []) "loan_status" = some (Value.str s) ∧
      (s ∈ paid_status ∨ s ∈ default_status)) :=
  anonymize_rows_in_window_and_status exDf (anonAfter exDf, anonOut exDf) (by rfl)
    ((anonOut exDf).rows.getD 0 []) (by decide)

/-- C2: in the output of `anonymize_and_filter_data`, `target_default` is 1
exactly when `loan_status` is in the Default set and 0 otherwise; the
mapping is a total function of the row. -/
theorem anonymize_target_default_spec (df : DataFrame) (p : DataFrame × DataFrame)
    (h : anonymize_and_filter_data df = .ok p) (r : Row) (hr : r ∈ p.2.rows) :
    ∃ s, getCell r "loan_status" = some (Value.str s) ∧
      ((s ∈ default_status ∧ getCell r "target_default" = some (Value.int 1)) ∨
       (s ∉ default_status ∧ getCell r "target_default" = some (Value.int 0))) := by
  obtain ⟨prows, r0, hp, hr0, hsame, htgt⟩ := anonOut_rows_mem h hr
  rw [filterStatus, List.mem_filter] at hr0
  obtain ⟨-, hs0⟩ := hr0
  unfold statusIsIn at hs0
  split at hs0
  next s hg =>
    refine ⟨s, by rw [hsame "loan_status" (by decide) (by decide) (by decide)]; exact hg, ?_⟩
    simp only [statusIsIn, hg] at htgt
    by_cases hsd : s ∈ default_status
    · left
      refine ⟨hsd, ?_⟩
      rw [htgt]
      have hc : default_status.contains s = true := by simpa using hsd
      rw [hc]
      simp
    · right
      refine ⟨hsd, ?_⟩
      rw [htgt]
      have hc : default_status.contains s = false := by simpa using hsd
      rw [hc]
      simp
  next hg => exact Bool.noConfusion hs0

theorem anonymize_target_default_spec_witness :
    ∃ s, getCell ((anonOut exDf).rows.getD 1 []) "loan_status" = some (Value.str s) ∧
      ((s ∈ default_status ∧
        getCell ((anonOut exDf).rows.getD 1 []) "target_default" = some (Value.int 1)) ∨
       (s ∉ default_status ∧
        getCell ((anonOut exDf).rows.getD 1 []) "target_default" = some (Value.int 0))) :=
  anonymize_target_default_spec exDf (anonAfter exDf, anonOut exDf) (by rfl)
    ((anonOut exDf).rows.getD 1 []) (by decide)

/-- C3: the output of `anonymize_and_filter_data` contains none of the 16
leakage columns nor the 5 privacy columns, whatever the input held; and
dropping columns absent from a table is a no-op (never an error — the
source drops only the intersection with the existing columns). -/
theorem anonymize_drops_leak_and_privacy_cols :
    (∀ df p, anonymize_and_filter_data df = .ok p →
      ∀ c, c ∈ future_leak_cols ++ privacy_cols → c ∉ p.2.cols) ∧
    (∀ (cs : List String) (df : DataFrame), (∀ c ∈ cs, c ∉ df.cols) →
      (∀ r ∈ df.rows, ∀ q ∈ r, q.1 ∉ cs) → dropCols cs df = df) := by
  constructor
  · intro df p h c hc hmem
    obtain ⟨prows, hid, hp, hls, hcls, hpe⟩ := anonymize_inv h
    rw [hpe] at hmem
    simp only [dropCols, List.mem_filter, Bool.not_eq_true'] at hmem
    rcases List.mem_append.mp hc with hcl | hcp
    · have hfalse := hmem.1.2
      have htrue : future_leak_cols.contains c = true := by simpa using hcl
      rw [htrue] at hfalse
      exact Bool.noConfusion hfalse
    · have hfalse := hmem.2
      have htrue : privacy_cols.contains c = true := by simpa using hcp
      rw [htrue] at hfalse
      exact Bool.noConfusion hfalse
  · intro cs df h1 h2
    have hcols : df.cols.filter (fun c => !(cs.contains c)) = df.cols := by
      rw [List.filter_eq_self]
      intro a ha
      have hnot : a ∉ cs := fun hin => h1 a hin ha
      simpa using hnot
    have hrows : df.rows.map (fun r => r.filter (fun q => !(cs.contains q.1))) = df.rows := by
      have := List.map_congr_left (l := df.rows)
        (f := fun r => r.filter (fun q : String × Value => !(cs.contains q.1)))
        (g := fun r => r)
        (fun r hrm => by
          rw [List.filter_eq_self]
          intro q hq
          simpa using h2 r hrm q hq)
      rw [this, List.map_id']
    cases df with
    | mk cols rows =>
      simp only [dropCols] at *
      rw [hcols, hrows]

theorem anonymize_drops_leak_and_privacy_cols_witness :
    ("member_id" ∉ (anonOut exDf).cols) ∧ dropCols privacy_cols exNoPriv = exNoPriv :=
  ⟨anonymize_drops_leak_and_privacy_cols.1 exDf (anonAfter exDf, anonOut exDf) (by rfl)
      "member_id" (by decide),
   anonymize_drops_leak_and_privacy_cols.2 privacy_cols exNoPriv (by decide) (by decide)⟩

/-- C9: when the rows surviving the date and status filters are non-empty
but all carry the same label class, `anonymize_and_filter_data` raises at
the label-distribution reporting step (`target_dist[0]`/`target_dist[1]`)
instead of returning the filtered table. -/
theorem anonymize_single_class_errors (df : DataFrame) (prows : List Row)
    (hid : "issue_d" ∈ df.cols) (hls : "loan_status" ∈ df.cols)
    (hp : parseRows df.rows = some prows)
    (hne : filterStatus (filterWindow prows) ≠ [])
    (hone : (∀ r ∈ filterStatus (filterWindow prows), statusIsIn r default_status = true) ∨
            (∀ r ∈ filterStatus (filterWindow prows), statusIsIn r default_status = false)) :
    anonymize_and_filter_data df = .error "KeyError: target_dist" := by
  have hb : ¬(((filterStatus (filterWindow prows)).any (fun r => !statusIsIn r default_status)
      && (filterStatus (filterWindow prows)).any (fun r => statusIsIn r default_status)) = true) := by
    rcases hone with hall | hall
    · intro hcontra
      obtain ⟨r, hrmem, hrb⟩ := List.any_eq_true.mp (Bool.and_eq_true_iff.mp hcontra).1
      rw [Bool.not_eq_true'] at hrb
      rw [hall r hrmem] at hrb
      exact Bool.noConfusion hrb
    · intro hcontra
      obtain ⟨r, hrmem, hrb⟩ := List.any_eq_true.mp (Bool.and_eq_true_iff.mp hcontra).2
      rw [hall r hrmem] at hrb
      exact Bool.noConfusion hrb
  unfold anonymize_and_filter_data
  rw [if_pos hid]
  simp only [hp]
  rw [if_pos hls, if_neg hb]

theorem anonymize_single_class_errors_witness :
    anonymize_and_filter_data exOneClass = .error "KeyError: target_dist" :=
  anonymize_single_class_errors exOneClass exOneClassParsed (by decide) (by decide)
    (by rfl) (by decide) (Or.inr (by decide))

/-- C6 counterexample: on `exDf` the call succeeds yet the caller's table
does not keep its cell values — the in-place assignment of source line 102
replaces the textual `issue_d` of row 0 by its parsed date. -/
theorem anonymize_mutates_input_cex :
    anonymize_and_filter_data exDf = .ok (anonAfter exDf, anonOut exDf) ∧
    getCell ((anonAfter exDf).rows.getD 0 []) "issue_d" ≠
      getCell (exDf.rows.getD 0 []) "issue_d" :=
  ⟨by rfl, by decide⟩

/-- C6 amended: `anonymize_and_filter_data` returns a new table, and after
the call the caller's table keeps its columns and every cell outside the
`issue_d` column; the `issue_d` cells are replaced in place by their parsed
date values (source line 102). -/
theorem anonymize_input_after_call (df : DataFrame) (p : DataFrame × DataFrame)
    (h : anonymize_and_filter_data df = .ok p) (i : Nat) (hi : i < df.rows.length)
    (c : String) (hc : c ≠ "issue_d") :
    p.1.cols = df.cols ∧ p.1.rows.length = df.rows.length ∧
    getCell (p.1.rows.getD i []) c = getCell (df.rows.getD i []) c ∧
    (∃ v n, getCell (df.rows.getD i []) "issue_d" = some v ∧ toDatetime v = some n ∧
      getCell (p.1.rows.getD i []) "issue_d" = some (Value.date n)) := by
  obtain ⟨prows, hid, hp, hls, hcls, hpe⟩ := anonymize_inv h
  obtain ⟨hlen, hpt⟩ := parseRows_spec hp
  obtain ⟨v, n, hv, hn, hset⟩ := hpt i hi
  rw [hpe]
  refine ⟨rfl, hlen, ?_, v, n, hv, hn, ?_⟩
  · show getCell (prows.getD i []) c = _
    rw [hset, getCell_setCell_ne _ _ _ _ hc]
  · show getCell (prows.getD i []) "issue_d" = _
    rw [hset, getCell_setCell_same]

theorem anonymize_input_after_call_witness :
    (anonAfter exDf).cols = exDf.cols ∧ (anonAfter exDf).rows.length = exDf.rows.length ∧
    getCell ((anonAfter exDf).rows.getD 0 []) "loan_status" =
      getCell (exDf.rows.getD 0 []) "loan_status" ∧
    (∃ v n, getCell (exDf.rows.getD 0 []) "issue_d" = some v ∧ toDatetime v = some n ∧
      getCell ((anonAfter exDf).rows.getD 0 []) "issue_d" = some (Value.date n)) :=
  anonymize_input_after_call exDf (anonAfter exDf, anonOut exDf) (by rfl) 0 (by decide)
    "loan_status" (by decide)

theorem sampleRows_length (seed n : Nat) (rows : List Row) :
    (sampleRows seed n rows).length = min n rows.length := by
  induction n generalizing seed rows with
  | zero => simp [sampleRows]
  | succ m ih =>
    cases rows with
    | nil => simp [sampleRows]
    | cons r rs =>
      simp only [sampleRows, List.length_cons]
      rw [ih]
      have hlt : lcgNext seed % (rs.length + 1) < (r :: rs).length := by
        simp only [List.length_cons]
        exact Nat.mod_lt _ (Nat.succ_pos rs.length)
      rw [List.length_eraseIdx_of_lt hlt]
      simp only [List.length_cons]
      omega

theorem sampleRows_subset (seed n : Nat) (rows : List Row) :
    ∀ r ∈ sampleRows seed n rows, r ∈ rows := by
  induction n generalizing seed rows with
  | zero => intro r hr; simp [sampleRows] at hr
  | succ m ih =>
    cases rows with
    | nil => intro r hr; simp [sampleRows] at hr
    | cons a rs =>
      intro r hr
      simp only [sampleRows] at hr
      rcases List.mem_cons.mp hr with h1 | h2
      · rw [h1]; exact List.get_mem ..
      · exact List.eraseIdx_subset _ _ (ih _ _ r h2)

theorem annotateRows_mem : ∀ {l l' : List Row}, annotateRows l = some l' →
    ∀ r ∈ l', ∃ y t, rowAnoCell r = some y ∧ rowTarget r = some t ∧
      rowStrataCell r = some (toString y ++ "_" ++ toString t) := by
  intro l
  induction l with
  | nil =>
    intro l' h r hr
    simp only [annotateRows, Option.some.injEq] at h
    subst h
    simp at hr
  | cons r0 rs ih =>
    intro l' h r hr
    simp only [annotateRows] at h
    split at h
    next r2 ha =>
      cases hp : annotateRows rs with
      | none => rw [hp] at h; exact Option.noConfusion h
      | some rest =>
        rw [hp] at h
        simp only [Option.map_some', Option.some.injEq] at h
        subst h
        rcases List.mem_cons.mp hr with h1 | h2
        · subst h1
          unfold addAnoStrataRow at ha
          split at ha
          next y hy =>
            split at ha
            next t ht =>
              simp only [Option.some.injEq] at ha
              subst ha
              refine ⟨y, t, ?_, ?_, ?_⟩
              · unfold rowAnoCell
                rw [getCell_setCell_ne _ _ _ _ (by decide), getCell_setCell_same]
              · have hcell : getCell (setCell (setCell r0 "ano" (Value.int y)) "strata"
                    (Value.str (toString y ++ "_" ++ toString t))) "target_default" =
                    getCell r0 "target_default" := by
                  rw [getCell_setCell_ne _ _ _ _ (by decide),
                    getCell_setCell_ne _ _ _ _ (by decide)]
                unfold rowTarget at ht ⊢
                rw [hcell]
                exact ht
              · unfold rowStrataCell
                rw [getCell_setCell_same]
            next ht => exact Option.noConfusion ha
          next hy => exact Option.noConfusion ha
        · exact ih hp r h2
    next ha => exact Option.noConfusion h

theorem rowAnoCell_filter_strata (r : Row) :
    rowAnoCell (r.filter (fun q => !((["strata"] : List String).contains q.1))) =
      rowAnoCell r := by
  unfold rowAnoCell
  rw [getCell_filter_not_contains _ _ _ (by decide)]

theorem rowTarget_filter_strata (r : Row) :
    rowTarget (r.filter (fun q => !((["strata"] : List String).contains q.1))) =
      rowTarget r := by
  unfold rowTarget
  rw [getCell_filter_not_contains _ _ _ (by decide)]

theorem strataKeyOf_filter_strata (r : Row) :
    strataKeyOf (r.filter (fun q => !((["strata"] : List String).contains q.1))) =
      strataKeyOf r := by
  unfold strataKeyOf
  rw [rowAnoCell_filter_strata, rowTarget_filter_strata]

theorem annotate_key_eq {l l' : List Row} (h : annotateRows l = some l') {r : Row}
    (hr : r ∈ l') : strataKeyOf r = rowStrataCell r := by
  obtain ⟨y, t, hy, ht, hk⟩ := annotateRows_mem h r hr
  unfold strataKeyOf
  rw [hy, ht, hk]

theorem count_flatten_blocks (f : String → List Row) (key : Row → Option String)
    (keys : List String) (hn : keys.Nodup)
    (hf : ∀ k2 ∈ keys, ∀ a ∈ f k2, key a = some k2) (k : String) (hk : k ∈ keys) :
    (((keys.map f).flatten).filter (fun a => key a == some k)).length = (f k).length := by
  induction keys with
  | nil => cases hk
  | cons k0 ks ih =>
    rw [List.map_cons, List.flatten_cons, List.filter_append, List.length_append]
    rcases List.mem_cons.mp hk with h1 | h2
    · subst h1
      have hblock : (f k).filter (fun a => key a == some k) = f k := by
        rw [List.filter_eq_self]
        intro a ha
        rw [hf k (List.mem_cons_self ..) a ha]
        simp
      have hrest : ((ks.map f).flatten.filter (fun a => key a == some k)).length = 0 := by
        have : (ks.map f).flatten.filter (fun a => key a == some k) = [] := by
          rw [List.filter_eq_nil_iff]
          intro a ha
          obtain ⟨bl, hbl, habl⟩ := List.mem_flatten.mp ha
          obtain ⟨k2, hk2, rfl⟩ := List.mem_map.mp hbl
          rw [hf k2 (List.mem_cons_of_mem _ hk2) a habl]
          have hne : k2 ≠ k := fun e => (List.nodup_cons.mp hn).1 (e ▸ hk2)
          simp [hne]
        rw [this]
        rfl
      rw [hblock, hrest]
      omega
    · have hk0 : k0 ≠ k := fun e => (List.nodup_cons.mp hn).1 (e ▸ h2)
      have hblock : (f k0).filter (fun a => key a == some k) = [] := by
        rw [List.filter_eq_nil_iff]
        intro a ha
        rw [hf k0 (List.mem_cons_self ..) a ha]
        simp [hk0]
      rw [hblock,
        ih (List.nodup_cons.mp hn).2 (fun k2 hk2 => hf k2 (List.mem_cons_of_mem _ hk2)) h2]
      simp

theorem strataBlock_subset (seed ts : Nat) (arows : List Row) (k : String) :
    ∀ r ∈ strataBlock seed ts arows k,
      r ∈ arows.filter (fun r => rowStrataCell r == some k) := by
  intro r hr
  unfold strataBlock at hr
  split at hr
  · split at hr
    · exact sampleRows_subset _ _ _ r hr
    · exact hr
  · simp at hr

theorem sampleSizeFor_bounds (ts tot c : Nat) (hc : 0 < c) :
    1 ≤ sampleSizeFor ts tot c ∧ sampleSizeFor ts tot c ≤ c := by
  unfold sampleSizeFor
  refine ⟨?_, Nat.min_le_right ..⟩
  by_cases h0 : pyStratumFloor ts c tot = 0
  · rw [if_pos ⟨h0, hc⟩]
    omega
  · rw [if_neg (fun hand => h0 hand.1)]
    have hpos : 0 < pyStratumFloor ts c tot := Nat.pos_of_ne_zero h0
    omega

theorem sampleSizeFor_pos_form (ts tot c : Nat) (hc : 0 < c) :
    sampleSizeFor ts tot c =
      min (if pyStratumFloor ts c tot = 0 then 1 else pyStratumFloor ts c tot) c := by
  unfold sampleSizeFor
  by_cases h0 : pyStratumFloor ts c tot = 0
  · rw [if_pos ⟨h0, hc⟩, if_pos h0]
  · rw [if_neg (fun hand => h0 hand.1), if_neg h0]

theorem strataCount_pos {arows : List Row} {k : String}
    (hk : k ∈ (arows.filterMap rowStrataCell).dedup) :
    0 < (arows.filter (fun r => rowStrataCell r == some k)).length := by
  rw [List.mem_dedup] at hk
  obtain ⟨r, hr, hrk⟩ := List.mem_filterMap.mp hk
  have hmem : r ∈ arows.filter (fun r => rowStrataCell r == some k) :=
    List.mem_filter.mpr ⟨hr, by rw [hrk]; simp⟩
  exact List.length_pos_of_mem hmem

theorem strataBlock_length (seed ts : Nat) (arows : List Row) (k : String)
    (hc : 0 < (arows.filter (fun r => rowStrataCell r == some k)).length) :
    (strataBlock seed ts arows k).length =
      sampleSizeFor ts arows.length
        (arows.filter (fun r => rowStrataCell r == some k)).length := by
  obtain ⟨h1, h2⟩ := sampleSizeFor_bounds ts arows.length _ hc
  unfold strataBlock
  rw [if_pos (by omega), if_pos h2, sampleRows_length]
  omega

theorem annotatedFrame_inv {df dfA : DataFrame} (h : annotatedFrame df = some dfA) :
    ∃ arows, annotateRows df.rows = some arows ∧
      "issue_d" ∈ df.cols ∧ "target_default" ∈ df.cols ∧
      dfA = ⟨appendCol (appendCol df.cols "ano") "strata", arows⟩ := by
  unfold annotatedFrame at h
  split at h
  case isTrue hcols =>
    split at h
    next arows ha =>
      simp only [Option.some.injEq] at h
      exact ⟨arows, ha, hcols.1, hcols.2, h.symm⟩
    next ha => exact Option.noConfusion h
  case isFalse hcols => exact Option.noConfusion h

theorem create_inv {df : DataFrame} {ts seed : Nat} {p : DataFrame × DataFrame}
    (h : create_stratified_sample df ts seed = some p) :
    annotatedFrame df = some p.1 ∧ p.1.rows ≠ [] ∧
    p.2 = dropCols ["strata"] ⟨p.1.cols, sampledRows seed ts p.1.rows⟩ := by
  unfold create_stratified_sample at h
  split at h
  next dfA ha =>
    split at h
    case isTrue he => exact Option.noConfusion h
    case isFalse he =>
      simp only [Option.some.injEq] at h
      subst h
      exact ⟨ha, by simpa using he, rfl⟩
  next ha => exact Option.noConfusion h

/-- C4 counterexample: with 49 rows split 47/2 into two strata and
`target_size = 49`, the claim's exact-floor formula gives
min(floor(49*2/49), 2) = 2 records for the two-row stratum, but the
program computes `int(49 * float64(2/49)) = int(1.9999999999999998) = 1`
and samples a single row from it. -/
theorem stratified_sample_exact_floor_cex :
    create_stratified_sample exBig 49 42 = some (csAfter exBig 49 42, csOut exBig 49 42) ∧
    ((csOut exBig 49 42).rows.filter (fun r => strataKeyOf r == some "2016_1")).length = 1 ∧
    min (if 49 * ((csAfter exBig 49 42).rows.filter
            (fun r => rowStrataCell r == some "2016_1")).length
            / (csAfter exBig 49 42).rows.length = 0
         then 1
         else 49 * ((csAfter exBig 49 42).rows.filter
            (fun r => rowStrataCell r == some "2016_1")).length
            / (csAfter exBig 49 42).rows.length)
      ((csAfter exBig 49 42).rows.filter
        (fun r => rowStrataCell r == some "2016_1")).length = 2 :=
  ⟨by rfl, by decide, by decide⟩

/-- C4 amended: for every stratum of the annotated table the sample's
contribution equals the program's float64 truncation
`int(target_size * (count/total))` — which can fall one below the exact
floor — forced up to 1 when that truncation is 0, capped at the stratum's
available count; hence every non-empty stratum contributes at least one
record and none contributes more than it holds. -/
theorem stratified_sample_stratum_size (df : DataFrame) (ts seed : Nat)
    (p : DataFrame × DataFrame) (h : create_stratified_sample df ts seed = some p)
    (k : String) (hk : k ∈ (p.1.rows.filterMap rowStrataCell).dedup) :
    ((p.2.rows.filter (fun r => strataKeyOf r == some k)).length =
      min (if pyStratumFloor ts
                (p.1.rows.filter (fun r => rowStrataCell r == some k)).length
                p.1.rows.length = 0
           then 1
           else pyStratumFloor ts
                (p.1.rows.filter (fun r => rowStrataCell r == some k)).length
                p.1.rows.length)
        (p.1.rows.filter (fun r => rowStrataCell r == some k)).length) ∧
    1 ≤ (p.2.rows.filter (fun r => strataKeyOf r == some k)).length ∧
    (p.2.rows.filter (fun r => strataKeyOf r == some k)).length ≤
      (p.1.rows.filter (fun r => rowStrataCell r == some k)).length := by
  obtain ⟨pA, pS⟩ := p
  obtain ⟨ha, hne, hout⟩ := create_inv h
  obtain ⟨arows, har, hic, htc, hdfA⟩ := annotatedFrame_inv ha
  simp only at ha hne hout hk ⊢
  subst hout
  have hdfA2 : pA = ⟨appendCol (appendCol df.cols "ano") "strata", arows⟩ := hdfA
  subst hdfA2
  simp only at ha hne hk ⊢
  have hc := strataCount_pos hk
  -- the sample's rows are the flattened blocks, each cell-stripped of `strata`
  have hcount : ((dropCols ["strata"] ⟨appendCol (appendCol df.cols "ano") "strata",
      sampledRows seed ts arows⟩).rows.filter
      (fun r => strataKeyOf r == some k)).length =
      sampleSizeFor ts arows.length
        (arows.filter (fun r => rowStrataCell r == some k)).length := by
    simp only [dropCols]
    rw [List.filter_map, List.length_map]
    rw [List.filter_congr (q := fun r => rowStrataCell r == some k) ?hcong]
    case hcong =>
      intro r hr
      have hmem : r ∈ arows := by
        obtain ⟨bl, hbl, habl⟩ := List.mem_flatten.mp hr
        obtain ⟨k2, hk2, rfl⟩ := List.mem_map.mp hbl
        exact List.mem_of_mem_filter (strataBlock_subset seed ts arows k2 r habl)
      show (strataKeyOf (r.filter _) == some k) = (rowStrataCell r == some k)
      rw [strataKeyOf_filter_strata, annotate_key_eq har hmem]
    simp only [sampledRows]
    rw [count_flatten_blocks (strataBlock seed ts arows) rowStrataCell _
      (List.nodup_dedup _)
      (fun k2 hk2 a hab => by
        have := strataBlock_subset seed ts arows k2 a hab
        have hp := List.of_mem_filter this
        exact beq_iff_eq.mp hp) k hk]
    exact strataBlock_length seed ts arows k hc
  refine ⟨?_, ?_, ?_⟩
  · rw [hcount, sampleSizeFor_pos_form _ _ _ hc]
  · rw [hcount]
    exact (sampleSizeFor_bounds _ _ _ hc).1
  · rw [hcount]
    exact (sampleSizeFor_bounds _ _ _ hc).2

theorem stratified_sample_stratum_size_witness :
    (((csOut exFdf 10 42).rows.filter (fun r => strataKeyOf r == some "2015_0")).length =
      min (if pyStratumFloor 10
                ((csAfter exFdf 10 42).rows.filter
                  (fun r => rowStrataCell r == some "2015_0")).length
                (csAfter exFdf 10 42).rows.length = 0
           then 1
           else pyStratumFloor 10
                ((csAfter exFdf 10 42).rows.filter
                  (fun r => rowStrataCell r == some "2015_0")).length
                (csAfter exFdf 10 42).rows.length)
        ((csAfter exFdf 10 42).rows.filter
          (fun r => rowStrataCell r == some "2015_0")).length) ∧
    1 ≤ ((csOut exFdf 10 42).rows.filter (fun r => strataKeyOf r == some "2015_0")).length ∧
    ((csOut exFdf 10 42).rows.filter (fun r => strataKeyOf r == some "2015_0")).length ≤
      ((csAfter exFdf 10 42).rows.filter
        (fun r => rowStrataCell r == some "2015_0")).length :=
  stratified_sample_stratum_size exFdf 10 42 (csAfter exFdf 10 42, csOut exFdf 10 42)
    (by rfl) "2015_0" (by decide)

/-- C5: two invocations of `create_stratified_sample` with identical table,
target size and seed return identical results — the embedding is a pure
function of exactly these three inputs. -/
theorem stratified_sample_deterministic (df1 df2 : DataFrame) (ts1 ts2 s1 s2 : Nat)
    (h1 : df1 = df2) (h2 : ts1 = ts2) (h3 : s1 = s2) :
    create_stratified_sample df1 ts1 s1 = create_stratified_sample df2 ts2 s2 := by
  rw [h1, h2, h3]

theorem stratified_sample_deterministic_witness :
    create_stratified_sample exFdf 10 42 = create_stratified_sample exFdf 10 42 :=
  stratified_sample_deterministic exFdf exFdf 10 10 42 42 rfl rfl rfl

/-- C10: `create_stratified_sample` leaves the caller's table with the
`ano` and `strata` columns appended in place, and returns a sample that
carries `ano` but not `strata` — one derived year column beyond the
input's columns. -/
theorem stratified_sample_columns (df : DataFrame) (ts seed : Nat)
    (p : DataFrame × DataFrame) (h : create_stratified_sample df ts seed = some p)
    (hano : "ano" ∉ df.cols) (hstr : "strata" ∉ df.cols) :
    p.1.cols = df.cols ++ ["ano", "strata"] ∧ p.2.cols = df.cols ++ ["ano"] ∧
    "ano" ∈ p.2.cols ∧ "strata" ∉ p.2.cols := by
  obtain ⟨pA, pS⟩ := p
  obtain ⟨ha, hne, hout⟩ := create_inv h
  obtain ⟨arows, har, hic, htc, hdfA⟩ := annotatedFrame_inv ha
  simp only at ha hne hout hdfA ⊢
  subst hout
  have hdfA2 : pA = ⟨appendCol (appendCol df.cols "ano") "strata", arows⟩ := hdfA
  subst hdfA2
  have hca : appendCol df.cols "ano" = df.cols ++ ["ano"] := if_neg hano
  have hcs : appendCol (appendCol df.cols "ano") "strata" =
      df.cols ++ ["ano", "strata"] := by
    rw [hca, appendCol, if_neg (by simp [hstr]), List.append_assoc]
    rfl
  have hdrop : (df.cols ++ ["ano", "strata"]).filter
      (fun c => !((["strata"] : List String).contains c)) = df.cols ++ ["ano"] := by
    rw [List.filter_append]
    have h1 : df.cols.filter (fun c => !((["strata"] : List String).contains c)) =
        df.cols := by
      rw [List.filter_eq_self]
      intro a ha2
      have : a ≠ "strata" := fun e => hstr (e ▸ ha2)
      simpa using this
    rw [h1]
    rfl
  refine ⟨hcs, ?_, ?_, ?_⟩
  · simp only [dropCols, hcs]
    rw [hdrop]
  · simp only [dropCols, hcs]
    rw [hdrop]
    simp
  · simp only [dropCols, hcs]
    rw [hdrop]
    intro hmem
    rcases List.mem_append.mp hmem with h1 | h2
    · exact hstr h1
    · simp at h2

theorem stratified_sample_columns_witness :
    (csAfter exFdf 10 42).cols = exFdf.cols ++ ["ano", "strata"] ∧
    (csOut exFdf 10 42).cols = exFdf.cols ++ ["ano"] ∧
    "ano" ∈ (csOut exFdf 10 42).cols ∧ "strata" ∉ (csOut exFdf 10 42).cols :=
  stratified_sample_columns exFdf 10 42 (csAfter exFdf 10 42, csOut exFdf 10 42)
    (by rfl) (by decide) (by decide)

theorem pathEndsWith_gzip_not_gz (s : String) (h : pathEndsWith s ".gzip" = true) :
    pathEndsWith s ".gz" = false := by
  unfold pathEndsWith at h ⊢
  rw [List.isSuffixOf_iff_suffix] at h
  by_contra hc
  rw [Bool.not_eq_false, List.isSuffixOf_iff_suffix] at hc
  rcases List.suffix_or_suffix_of_suffix hc h with h1 | h2
  · exact absurd h1 (by decide)
  · have hlen := h2.length_le
    simp at hlen

/-- C8: the compression decision of the loader, as a function of the path
and the first two bytes: a `.gz` path is read as gzip; a `.gzip` path is
read as gzip exactly when the magic bytes are `0x1f 0x8b` (and a `.gzip`
path never also ends in `.gz`); everything else is read uncompressed. -/
theorem compression_decision_spec (file_path : String) (magic : List Nat) :
    (detectCompression file_path magic = Compression.gzip ↔
      (pathEndsWith file_path ".gz" = true ∨
       (pathEndsWith file_path ".gzip" = true ∧ magic = gzipMagic))) ∧
    (pathEndsWith file_path ".gzip" = true → pathEndsWith file_path ".gz" = false) ∧
    (detectCompression file_path magic = Compression.gzip ∨
     detectCompression file_path magic = Compression.uncompressed) := by
  refine ⟨?_, pathEndsWith_gzip_not_gz file_path, ?_⟩
  · unfold detectCompression
    by_cases h1 : pathEndsWith file_path ".gz" = true
    · rw [if_pos h1]
      simp [h1]
    · rw [if_neg h1]
      by_cases h2 : pathEndsWith file_path ".gzip" = true
      · rw [if_pos h2]
        by_cases h3 : magic = gzipMagic
        · rw [if_pos h3]
          simp [h2, h3]
        · rw [if_neg h3]
          constructor
          · intro hc; exact Compression.noConfusion hc
          · rintro (hgz | ⟨-, hm⟩)
            · exact absurd hgz h1
            · exact absurd hm h3
      · rw [if_neg h2]
        constructor
        · intro hc; exact Compression.noConfusion hc
        · rintro (hgz | ⟨hgzip, -⟩)
          · exact absurd hgz h1
          · exact absurd hgzip h2
  · unfold detectCompression
    split
    · left; rfl
    · split
      · split
        · left; rfl
        · right; rfl
      · right; rfl

theorem compression_decision_spec_witness :
    pathEndsWith "data.gzip" ".gz" = false :=
  (compression_decision_spec "data.gzip" [0, 1]).2.1 (by decide)

theorem atd_inv {dfo dfs : DataFrame}
    {res : DataFrame × DataFrame × List (Int × Option Nat × Option Nat × Option Nat)}
    (h : analyze_temporal_distribution dfo dfs = some res) :
    ∃ ro rs, anoRows dfo.rows = some ro ∧ anoRows dfs.rows = some rs ∧
      res = (⟨appendCol dfo.cols "ano", ro⟩, ⟨appendCol dfs.cols "ano", rs⟩,
        (List.insertionSort (· ≤ ·) ((yearVals ro ++ yearVals rs).dedup)).map
          (compEntry ro rs)) := by
  unfold analyze_temporal_distribution at h
  split at h
  case isTrue hcols =>
    split at h
    next ro rs ha hb =>
      simp only [Option.some.injEq] at h
      exact ⟨ro, rs, ha, hb, h.symm⟩
    next hnb => exact Option.noConfusion h
  case isFalse hcols => exact Option.noConfusion h

/-- C7 counterexample: with a source table holding only year 2015 and a
sample table holding only year 2016, the comparison row for 2015 carries no
sample share and no difference (pandas index alignment yields `NaN` there),
so the claim that all three rounded values are produced for every year
present in either table fails. -/
theorem temporal_comparison_missing_year_cex :
    (analyze_temporal_distribution exO7 exS7 = some (atdRes exO7 exS7)) ∧
    (2015, some 1000, (none : Option Nat), (none : Option Nat)) ∈ (atdRes exO7 exS7).2.2 ∧
    ¬(∀ e ∈ (atdRes exO7 exS7).2.2, e.2.1.isSome ∧ e.2.2.1.isSome ∧ e.2.2.2.isSome) :=
  ⟨by rfl, by decide, by decide⟩

/-- C7 amended: the comparison has one row per year present in either
table, ordered ascending without duplicates; a row's source share and
sample share are the rounded percentages of the corresponding table when
the year occurs there and missing otherwise, and the difference is the
rounded absolute gap of the two unrounded shares when the year occurs in
both tables and missing otherwise.  Percentages are carried as integer
tenths of a percent, computed through the program's float64 arithmetic
(round to nearest, ties to even — `1/16` reports 6.2). -/
theorem temporal_comparison_spec (dfo dfs : DataFrame)
    (res : DataFrame × DataFrame × List (Int × Option Nat × Option Nat × Option Nat))
    (h : analyze_temporal_distribution dfo dfs = some res)
    (y : Int) (o s d : Option Nat) (hmem : (y, o, s, d) ∈ res.2.2) :
    (res.2.2.map Prod.fst =
      List.insertionSort (· ≤ ·) ((yearVals res.1.rows ++ yearVals res.2.1.rows).dedup)) ∧
    (res.2.2.map Prod.fst).Sorted (· ≤ ·) ∧
    (res.2.2.map Prod.fst).Nodup ∧
    (y ∈ yearVals res.1.rows ∨ y ∈ yearVals res.2.1.rows) ∧
    o = (if y ∈ yearVals res.1.rows
         then some (pctTenths (yearCount res.1.rows y) res.1.rows.length) else none) ∧
    s = (if y ∈ yearVals res.2.1.rows
         then some (pctTenths (yearCount res.2.1.rows y) res.2.1.rows.length) else none) ∧
    d = (if y ∈ yearVals res.1.rows ∧ y ∈ yearVals res.2.1.rows
         then some (diffTenths (yearCount res.1.rows y) res.1.rows.length
                      (yearCount res.2.1.rows y) res.2.1.rows.length) else none) := by
  obtain ⟨ro, rs, ha, hb, hres⟩ := atd_inv h
  subst hres
  simp only at hmem ⊢
  have hfst : ((List.insertionSort (· ≤ ·) ((yearVals ro ++ yearVals rs).dedup)).map
      (compEntry ro rs)).map Prod.fst =
      List.insertionSort (· ≤ ·) ((yearVals ro ++ yearVals rs).dedup) := by
    rw [List.map_map]
    have hcomp : (Prod.fst ∘ compEntry ro rs) = fun y2 : Int => y2 := rfl
    rw [hcomp, List.map_id']
  obtain ⟨y0, hy0mem, hy0⟩ := List.mem_map.mp hmem
  have hy : y0 = y := congrArg Prod.fst hy0
  subst hy
  have ho : (compEntry ro rs y0).2.1 = o := congrArg (fun e => e.2.1) hy0
  have hs : (compEntry ro rs y0).2.2.1 = s := congrArg (fun e => e.2.2.1) hy0
  have hd : (compEntry ro rs y0).2.2.2 = d := congrArg (fun e => e.2.2.2) hy0
  have hymem : y0 ∈ (yearVals ro ++ yearVals rs).dedup :=
    (List.perm_insertionSort _ _).mem_iff.mp hy0mem
  rw [List.mem_dedup, List.mem_append] at hymem
  refine ⟨hfst, ?_, ?_, hymem, ho.symm, hs.symm, hd.symm⟩
  · rw [hfst]
    exact List.sorted_insertionSort _ _
  · rw [hfst]
    exact ((List.perm_insertionSort _ _).nodup_iff).mpr (List.nodup_dedup _)

theorem temporal_comparison_spec_witness :
    ((atdRes exO7 exS7).2.2.map Prod.fst =
      List.insertionSort (· ≤ ·)
        ((yearVals (atdRes exO7 exS7).1.rows ++ yearVals (atdRes exO7 exS7).2.1.rows).dedup)) ∧
    ((atdRes exO7 exS7).2.2.map Prod.fst).Sorted (· ≤ ·) ∧
    ((atdRes exO7 exS7).2.2.map Prod.fst).Nodup ∧
    ((2015 : Int) ∈ yearVals (atdRes exO7 exS7).1.rows ∨
      (2015 : Int) ∈ yearVals (atdRes exO7 exS7).2.1.rows) ∧
    some 1000 = (if (2015 : Int) ∈ yearVals (atdRes exO7 exS7).1.rows
         then some (pctTenths (yearCount (atdRes exO7 exS7).1.rows 2015)
                      (atdRes exO7 exS7).1.rows.length) else none) ∧
    (none : Option Nat) = (if (2015 : Int) ∈ yearVals (atdRes exO7 exS7).2.1.rows
         then some (pctTenths (yearCount (atdRes exO7 exS7).2.1.rows 2015)
                      (atdRes exO7 exS7).2.1.rows.length) else none) ∧
    (none : Option Nat) = (if (2015 : Int) ∈ yearVals (atdRes exO7 exS7).1.rows ∧
            (2015 : Int) ∈ yearVals (atdRes exO7 exS7).2.1.rows
         then some (diffTenths (yearCount (atdRes exO7 exS7).1.rows 2015)
                      (atdRes exO7 exS7).1.rows.length
                      (yearCount (atdRes exO7 exS7).2.1.rows 2015)
                      (atdRes exO7 exS7).2.1.rows.length) else none) :=
  temporal_comparison_spec exO7 exS7 (atdRes exO7 exS7) (by rfl) 2015 (some 1000) none none
    (by decide)
